import Mathlib

/-!
Shallow embedding of `src/core/AbstractManager.js` (ajax-solr).

The manager coordinates a registry of widgets, builds Solr query objects,
serializes them to a backend query string, and mirrors the query state into
the URL hash fragment.  JavaScript arrays become Lean lists, JavaScript
numbers that can be `NaN` become `Option Int` (`none` = `NaN`), the widget
registry (a JS object iterated in insertion order) becomes a list of widgets,
and the in-place mutation of `buildQueryString` on its argument is made
explicit by returning the updated query object alongside the string.

`AjaxSolr.QueryItem` / `AjaxSolr.FilterQueryItem` and `AjaxSolr.AbstractWidget`
are referenced by the manager but are not part of the sources; their shapes
and codec methods are modelled from the spec (see the doc comments below).
-/

/-- A JavaScript number restricted to the integer values this program
produces; `none` models `NaN` (the result of `parseInt` on a string with no
leading integer). -/
abbrev JsInt := Option Int

/-- Modelled from the spec: a QueryItem is `{ value: string }`, one free-text
term (the item type is not under `src/`). -/
structure QueryItem where
  value : String
deriving DecidableEq

/-- Modelled from the spec: a FilterQueryItem is
`{ widgetId: string, field: string, value: string }`, one facet filter tagged
with the owning widget's identifier (the item type is not under `src/`). -/
structure FilterQueryItem where
  widgetId : String
  field : String
  value : String
deriving DecidableEq

/-- One date-facet descriptor `{field, start, end, gap}` as consumed by
`buildQueryString` (lines 317-323); `end` is a Lean keyword, hence `end_`. -/
structure DateFacet where
  field : String
  start : String
  end_ : String
  gap : String
deriving DecidableEq

/-- The query object allocated by `buildQuery` (lines 282-299) and consumed by
`buildQueryString` / `saveQueryToHash`.  `sort` is absent (`none`) unless a
widget sets it; `rows` and `start` are JS numbers. -/
structure QueryObj where
  fields : List String
  dates : List DateFacet
  q : List QueryItem
  fl : List String
  fq : List FilterQueryItem
  start : JsInt
  rows : Int
  sort : Option String
deriving DecidableEq

/-- Modelled from the spec: the item-level codec methods
(`toSolr`, `toHash`, `parseHash` on the two item types, and the
`String.prototype.urlencode` helper) live outside `src/`; the manager is
parametric over them.  `toSolr`/`urlencode` take the `skip`-encoding flag. -/
structure Codecs where
  qToSolr : QueryItem → Bool → String
  fqToSolr : FilterQueryItem → Bool → String
  qToHash : QueryItem → String
  fqToHash : FilterQueryItem → String
  qParseHash : String → QueryItem
  fqParseHash : String → FilterQueryItem
  urlencode : String → Bool → String

/-- Modelled from the spec: a widget holds a unique `id`, its own selection
state, and an `alterQuery` behaviour that, given the widget's current
selection, transforms the query object (spec 4.2 / 6: widgets contribute to
query building and expose selection mutators). -/
structure Widget where
  id : String
  selection : List String
  alter : List String → QueryObj → QueryObj

/-- Modelled from the spec: `AbstractWidget.selectItems` adds each given item
that is not already selected and reports whether the selection actually
changed (spec 3/6: "mutators that report whether state actually changed"; the
manager's own doc comments, lines 136 and 169-171, say the items are added). -/
def Widget.selectItems (w : Widget) (items : List String) : Widget × Bool :=
  items.foldl
    (fun p it =>
      if p.1.selection.contains it then p
      else ({ p.1 with selection := p.1.selection ++ [it] }, true))
    (w, false)

/-- Modelled from the spec: `AbstractWidget.deselectItems` removes each given
item and reports whether the selection actually changed. -/
def Widget.deselectItems (w : Widget) (items : List String) : Widget × Bool :=
  items.foldl
    (fun p it =>
      if p.1.selection.contains it then
        ({ p.1 with selection := p.1.selection.filter (fun x => x ≠ it) }, true)
      else p)
    (w, false)

/-- Modelled from the spec: `AbstractWidget.deselectAll` empties the widget's
selection. -/
def Widget.deselectAll (w : Widget) : Widget :=
  { w with selection := [] }

/-- The manager-level base filters `filters: { q: [], fq: [], fl: [] }`
(lines 41-45). -/
structure Filters where
  q : List QueryItem
  fq : List FilterQueryItem
  fl : List String

/-- The manager state: base filters, highlight field `hlFl` (line 55), the
widget registry (a JS object whose `for..in` iteration follows insertion
order, hence a list), the start offset (line 74) and the cached hash copy
(line 84). -/
structure Manager where
  filters : Filters
  hlFl : String
  widgets : List Widget
  start : JsInt
  hash : String

/-- Lookup `this.widgets[widgetId]` (may be absent). -/
def Manager.findWidget (m : Manager) (widgetId : String) : Option Widget :=
  m.widgets.find? (fun w => w.id = widgetId)

/-- Truthiness test `if (this.widgets[widgetId])`: is a widget with this id
registered? -/
def Manager.hasWidget (m : Manager) (widgetId : String) : Bool :=
  m.widgets.any (fun w => w.id = widgetId)

/-- Replace the stored widget under `widgetId` (in-place mutation of the
registry entry in JS). -/
def Manager.setWidget (m : Manager) (widgetId : String) (w2 : Widget) : Manager :=
  { m with widgets := m.widgets.map (fun w => if w.id = widgetId then w2 else w) }

/-- Line 105: the default admission hook always answers true. -/
def Manager.canAddWidget (_m : Manager) (_w : Widget) : Bool :=
  true

/-- Lines 91-97, `addWidget`: if admitted, store the widget under its id.
Assigning to an existing key of a JS object keeps the key's original
insertion position, a fresh key is appended. -/
def Manager.addWidget (m : Manager) (w : Widget) : Manager :=
  if m.canAddWidget w then
    if m.widgets.any (fun x => x.id = w.id) then
      { m with widgets := m.widgets.map (fun x => if x.id = w.id then w else x) }
    else
      { m with widgets := m.widgets ++ [w] }
  else m

/-- Lines 282-299, `buildQuery(start)`: allocate a query object with empty
`fields`/`dates`, copy (`slice()`) the base filters, set `start` and
`rows = 0`, then let every registered widget alter it, in registry order. -/
def Manager.buildQuery (m : Manager) (start : JsInt) : QueryObj :=
  let queryObj : QueryObj :=
    { fields := []
      dates := []
      q := m.filters.q
      fl := m.filters.fl
      fq := m.filters.fq
      start := start
      rows := 0
      sort := none }
  m.widgets.foldl (fun qo w => w.alter w.selection qo) queryObj

/-- Decimal digit characters for the JS number-to-string conversion. -/
def digitChar (d : Nat) : Char :=
  match d with
  | 0 => '0'
  | 1 => '1'
  | 2 => '2'
  | 3 => '3'
  | 4 => '4'
  | 5 => '5'
  | 6 => '6'
  | 7 => '7'
  | 8 => '8'
  | _ => '9'

/-- Fuel-driven worker for the decimal expansion (structural recursion on the
fuel so that the kernel can evaluate it; `natToChars` always supplies enough
fuel, see `natToChars_eq`). -/
def natToCharsAux : Nat → Nat → List Char
  | 0, _ => []
  | f + 1, n => if n < 10 then [digitChar n] else natToCharsAux f (n / 10) ++ [digitChar (n % 10)]

/-- Decimal digits of a natural number, most significant first (the decimal
expansion used by ECMAScript number-to-string for integers). -/
def natToChars (n : Nat) : List Char :=
  natToCharsAux (n + 1) n

/-- Modelled from the spec: ECMAScript ToString on the numbers this program
stores — decimal digits, a leading minus for negatives, the literal `NaN` for
the not-a-number value. -/
def jsToString (j : JsInt) : String :=
  match j with
  | none => "NaN"
  | some i => if i < 0 then "-" ++ String.mk (natToChars i.natAbs) else String.mk (natToChars i.natAbs)

/-- ECMAScript whitespace test used by `parseInt` (the common whitespace
characters; none occur in this program's own fragments). -/
def isJsSpace (ch : Char) : Bool :=
  ch.toNat = 32 || ch.toNat = 9 || ch.toNat = 10 || ch.toNat = 13 || ch.toNat = 11 || ch.toNat = 12

/-- Digit value of a character under the given radix (0-9, a-z, A-Z), as in
ECMAScript `parseInt`. -/
def digitValIn (radix : Nat) (ch : Char) : Option Nat :=
  let n := ch.toNat
  let v : Option Nat :=
    if 48 ≤ n ∧ n ≤ 57 then some (n - 48)
    else if 97 ≤ n ∧ n ≤ 122 then some (n - 87)
    else if 65 ≤ n ∧ n ≤ 90 then some (n - 55)
    else none
  match v with
  | some d => if d < radix then some d else none
  | none => none

/-- Longest prefix of valid digits under the given radix, as digit values. -/
def takeDigits (radix : Nat) : List Char → List Nat
  | [] => []
  | c :: rest =>
    match digitValIn radix c with
    | some d => d :: takeDigits radix rest
    | none => []

/-- Value of the longest digit prefix under the given radix; `none` when there
is no digit at all (ECMAScript `parseInt` yields `NaN` then). -/
def parseRadix (radix : Nat) (s : List Char) : Option Nat :=
  let ds := takeDigits radix s
  if ds = [] then none
  else some (ds.foldl (fun a d => a * radix + d) 0)

/-- Unsigned part of ECMAScript `parseInt` without an explicit radix: a
`0x`/`0X` prefix selects hexadecimal, otherwise decimal. -/
def parseNatLead (s : List Char) : Option Nat :=
  match s with
  | a :: b :: rest =>
    if a = '0' ∧ (b = 'x' ∨ b = 'X') then parseRadix 16 rest else parseRadix 10 s
  | _ => parseRadix 10 s

/-- Modelled from the spec: ECMAScript `parseInt(string)` as called on line
246 — skip whitespace, optional sign, longest digit prefix, `NaN` (here
`none`) when no digit is found. -/
def jsParseInt (s : List Char) : JsInt :=
  match s.dropWhile isJsSpace with
  | [] => none
  | c :: rest =>
    if c = '-' then (parseNatLead rest).map (fun n => -(n : Int))
    else if c = '+' then (parseNatLead rest).map (fun n => (n : Int))
    else (parseNatLead (c :: rest)).map (fun n => (n : Int))

/-- JavaScript `string.split(sep)` for a one-character separator: splitting
the empty string yields `[""]`, as in JS. -/
def splitOnCh (sep : Char) : List Char → List (List Char)
  | [] => [[]]
  | c :: rest =>
    if c = sep then [] :: splitOnCh sep rest
    else
      match splitOnCh sep rest with
      | [] => [[c]]
      | s :: ss => (c :: s) :: ss

/-- Concatenation of the images of the list elements, the shape every
`for .. query += ..` accumulation loop of the source produces. -/
def concatMapStr (f : α → String) (l : List α) : String :=
  l.foldl (fun acc x => acc ++ f x) ""

/-- Lines 308-349, `buildQueryString(queryObj, skip)`: the backend query
string, built exactly in source order.  The source mutates its argument
(`queryObj.fl.push('id')`, line 337); the updated query object is returned as
the second component. -/
def buildQueryString (c : Codecs) (hlFl : String) (queryObj : QueryObj) (skip : Bool) :
    String × QueryObj :=
  let query := "facet=true&facet.limit=40&facet.sort=true&facet.mincount=1&hl=true"
  let query := queryObj.fields.foldl
    (fun acc f => acc ++ ("&facet.field=" ++ c.urlencode f skip)) query
  let query := queryObj.dates.foldl
    (fun acc d => acc ++
      ("&facet.date=" ++ c.urlencode d.field skip ++
       "&f." ++ d.field ++ ".facet.date.start=" ++ c.urlencode d.start skip ++
       "&f." ++ d.field ++ ".facet.date.end=" ++ c.urlencode d.end_ skip ++
       "&f." ++ d.field ++ ".facet.date.gap=" ++ c.urlencode d.gap skip)) query
  let query := queryObj.fq.foldl
    (fun acc it => acc ++ ("&fq=" ++ c.fqToSolr it skip)) query
  let qstr := queryObj.q.foldl (fun acc it => acc ++ (c.qToSolr it skip ++ " ")) ""
  let query := query ++ ("&q=" ++ qstr)
  let queryObj := { queryObj with fl := queryObj.fl ++ ["id"] }
  let query := query ++ ("&fl=" ++ String.intercalate "," queryObj.fl)
  let query := query ++ ("&rows=" ++ jsToString (some queryObj.rows))
  let query := query ++ ("&start=" ++ jsToString queryObj.start)
  let query :=
    match queryObj.sort with
    | some s => if s = "" then query else query ++ ("&sort=" ++ s)
    | none => query
  (query ++ ("&hl.fl=" ++ hlFl), queryObj)

/-- The `sort=` parameter as emitted by `buildQueryString` (lines 342-344):
present exactly when the query object's sort expression is truthy (set and
non-empty). -/
def sortParamStr (sort : Option String) : String :=
  match sort with
  | some s => if s = "" then "" else "&sort=" ++ s
  | none => ""

/-- Lines 256-264, `saveQueryToHash(queryObj)`: the fragment written to
`window.location.hash` — one `fq=..&` per filter item, one `q=..&` per query
item, then `start=<n>`, after a leading `#`. -/
def saveQueryToHash (c : Codecs) (queryObj : QueryObj) : String :=
  let hash := "#"
  let hash := queryObj.fq.foldl (fun acc it => acc ++ ("fq=" ++ c.fqToHash it ++ "&")) hash
  let hash := queryObj.q.foldl (fun acc it => acc ++ ("q=" ++ c.qToHash it ++ "&")) hash
  hash ++ ("start=" ++ jsToString queryObj.start)

/-- Route a single value into a registered widget's selection mutator,
`this.widgets[id].selectItems(items)` as done inside `loadQueryFromHash`. -/
def selectOnWidget (m : Manager) (widgetId : String) (items : List String) : Manager :=
  { m with widgets := m.widgets.map (fun w => if w.id = widgetId then (w.selectItems items).1 else w) }

/-- Lines 220-222: reset every registered widget to the empty selection. -/
def resetAll (m : Manager) : Manager :=
  { m with widgets := m.widgets.map Widget.deselectAll }

/-- Lines 228-248, the body of the fragment-segment loop of
`loadQueryFromHash`: dispatch one segment by its literal prefix; `fq=`
segments are routed to the widget named by the decoded item (dropped when
unregistered), `q=` segments go to the widget registered as `text` (dropped
when absent), `start=` segments are parsed with `parseInt`; anything else is
ignored. -/
def loadSegment (c : Codecs) (m : Manager) (v : List Char) : Manager :=
  if v.take 3 = ['f', 'q', '='] then
    let item := c.fqParseHash (String.mk (v.drop 3))
    if m.hasWidget item.widgetId then selectOnWidget m item.widgetId [item.value] else m
  else if v.take 2 = ['q', '='] then
    let item := c.qParseHash (String.mk (v.drop 2))
    if m.hasWidget "text" then selectOnWidget m "text" [item.value] else m
  else if v.take 6 = ['s', 't', 'a', 'r', 't', '='] then
    { m with start := jsParseInt (v.drop 6) }
  else m

/-- Lines 216-249, `loadQueryFromHash()`: if the live hash (`locationHash`,
the value of `window.location.hash`, `#` included) is non-empty, first reset
every widget; then split the hash past the `#` on `&` and dispatch every
segment. -/
def loadQueryFromHash (c : Codecs) (locationHash : String) (m : Manager) : Manager :=
  let m := if locationHash.length ≠ 0 then resetAll m else m
  let vars := splitOnCh '&' (locationHash.data.drop 1)
  vars.foldl (loadSegment c) m

/-- Lines 141-145, `selectItems(widgetId, items)`: delegate to the widget's
mutator and run `doRequest(0)` when it reports a change.  `this.widgets[widgetId]`
is a plain member access: when no widget is registered under the id it yields
`undefined` and the call throws, modelled by `none`.  The second component
lists the start offsets of the requests issued. -/
def Manager.selectItems (m : Manager) (widgetId : String) (items : List String) :
    Option (Manager × List Int) :=
  match m.findWidget widgetId with
  | none => none
  | some w =>
    let r := w.selectItems items
    some (m.setWidget widgetId r.1, if r.2 then [0] else [])

/-- Lines 153-157, `deselectItems(widgetId, items)`: like `selectItems`, with
the widget's deselection mutator. -/
def Manager.deselectItems (m : Manager) (widgetId : String) (items : List String) :
    Option (Manager × List Int) :=
  match m.findWidget widgetId with
  | none => none
  | some w =>
    let r := w.deselectItems items
    some (m.setWidget widgetId r.1, if r.2 then [0] else [])

/-- Lines 164-167, `deselectWidget(widgetId)`: clear the widget and always run
`doRequest(0)`; also a plain member access that throws on an unregistered id. -/
def Manager.deselectWidget (m : Manager) (widgetId : String) :
    Option (Manager × List Int) :=
  match m.findWidget widgetId with
  | none => none
  | some w => some (m.setWidget widgetId w.deselectAll, [0])

/-- Lines 176-186, `selectOnlyItems(keepId, items)`: iterate the registry,
applying `selectItems(items)` to the kept widget and `deselectAll()` to every
other; then run `doRequest(0)`. -/
def Manager.selectOnlyItems (m : Manager) (keepId : String) (items : List String) :
    Manager × List Int :=
  let ws := m.widgets.map (fun w => if w.id = keepId then (w.selectItems items).1 else w.deselectAll)
  ({ m with widgets := ws }, [0])

/-- The values the fragment decoder routes into the widget registered under
`wid`: its own filter values in filter order, plus — only for the widget named
`text` — every free-text term value. -/
def routedValues (queryObj : QueryObj) (wid : String) : List String :=
  ((queryObj.fq.filter (fun it => it.widgetId = wid)).map (fun it => it.value)) ++
    (if wid = "text" then queryObj.q.map (fun it => it.value) else [])

/-- Substring test on the underlying character lists (used to state the
concrete-scenario claims about the serialized backend string). -/
def hasSub (hay needle : List Char) : Bool :=
  match hay with
  | [] => needle.isEmpty
  | _ :: t => needle.isPrefixOf hay || hasSub t needle

/-- A concrete codec instance for the counterexamples and witnesses: terms
and filter values drawn from unreserved characters, where the fragment and
backend encodings of the spec are the identity; filter items are tagged
`widgetId:field:value` in the fragment so they parse back. -/
def sampleCodecs : Codecs :=
  { qToSolr := fun it _ => it.value
    fqToSolr := fun it _ => it.field ++ ":" ++ it.value
    qToHash := fun it => it.value
    fqToHash := fun it => it.widgetId ++ ":" ++ it.field ++ ":" ++ it.value
    qParseHash := fun s => { value := s }
    fqParseHash := fun s =>
      match splitOnCh ':' s.data with
      | [a, b, c] => { widgetId := String.mk a, field := String.mk b, value := String.mk c }
      | _ => { widgetId := s, field := "", value := "" }
    urlencode := fun s _ => s }

/-- The `text` widget of the spec's concrete scenario: it appends its selected
terms, as query items, to the query object's `q`. -/
def textWidget : Widget :=
  { id := "text"
    selection := []
    alter := fun sel qo => { qo with q := qo.q ++ sel.map (fun v => { value := v }) } }

/-- The concrete-scenario manager: base filters `{q: [], fq: [], fl: ["title"]}`
and the single registered widget `text`. -/
def scenarioManager : Manager :=
  { filters := { q := [], fq := [], fl := ["title"] }
    hlFl := "body"
    widgets := [textWidget]
    start := some 0
    hash := "" }

/-- A widget whose `alterQuery` does nothing (for counterexamples that only
exercise selection state). -/
def inertWidget (wid : String) (sel : List String) : Widget :=
  { id := wid, selection := sel, alter := fun _ qo => qo }

/-- The scenario manager after the term `cats` has been selected on the
`text` widget. -/
def scenarioAfterSelect : Manager :=
  { scenarioManager with widgets := [{ textWidget with selection := ["cats"] }] }

/-- The query object the scenario request builds (`doRequest(0)` after the
selection change calls `buildQuery(0)`). -/
def scenarioQuery : QueryObj :=
  scenarioAfterSelect.buildQuery (some 0)

/-- The scenario's serialized backend string and the query object after
serialization (which appends `id` to `fl` in place). -/
def scenarioSerialized : String × QueryObj :=
  buildQueryString sampleCodecs "body" scenarioQuery false

/-- The scenario's persisted fragment. -/
def scenarioFragment : String :=
  saveQueryToHash sampleCodecs scenarioQuery

/-- A concrete query object exercising both a filter item and a free-text
term (used by the round-trip witness). -/
def sampleQuery : QueryObj :=
  { fields := []
    dates := []
    q := [{ value := "cats" }]
    fl := []
    fq := [{ widgetId := "color", field := "color", value := "red" }]
    start := some 20
    rows := 0
    sort := none }

/-- A concrete manager with the widgets `color` and `text` registered (used
by the round-trip witness). -/
def sampleManager : Manager :=
  { filters := { q := [], fq := [], fl := [] }
    hlFl := "body"
    widgets := [inertWidget "color" [], inertWidget "text" []]
    start := some 0
    hash := "" }

namespace Alias

/-- The array store: JS arrays are heap objects compared by identity, made
explicit here to state the frame claim that the base filter arrays are never
written during a request cycle.  A reference is an index (a `Nat`) into the
store; cell `r` holds the contents of the array referenced by `r` (contents
are opaque strings; only array identity and writes matter). -/
abbrev Heap := List (List String)

/-- Read the array behind a reference. -/
def readH (h : Heap) (r : Nat) : List String :=
  (h[r]?).getD []

/-- Overwrite the array behind a reference. -/
def writeH (h : Heap) (r : Nat) (v : List String) : Heap :=
  h.set r v

/-- Allocate a fresh array (a JS array literal or the result of `slice()`). -/
def allocH (h : Heap) (v : List String) : Heap × Nat :=
  (h ++ [v], h.length)

/-- `array.push(..)` / appending entries to an array in place. -/
def appendH (h : Heap) (r : Nat) (xs : List String) : Heap :=
  writeH h r (readH h r ++ xs)

/-- The manager's base filter arrays, by reference (lines 41-45). -/
structure FiltersR where
  q : Nat
  fq : Nat
  fl : Nat

/-- The query object of `buildQuery`, by reference: five arrays. -/
structure QueryObjR where
  fields : Nat
  dates : Nat
  q : Nat
  fl : Nat
  fq : Nat

/-- What one widget's `alterQuery` appends to each of the query object's
arrays (spec 4.2: widgets may only append entries to the object's array
fields). -/
structure WidgetEff where
  toFields : List String
  toDates : List String
  toQ : List String
  toFl : List String
  toFq : List String

/-- One widget's `alterQuery` pass: append its contributions to the query
object's arrays, in place. -/
def alterQueryR (h : Heap) (qo : QueryObjR) (w : WidgetEff) : Heap :=
  let h := appendH h qo.fields w.toFields
  let h := appendH h qo.dates w.toDates
  let h := appendH h qo.q w.toQ
  let h := appendH h qo.fl w.toFl
  appendH h qo.fq w.toFq

/-- Lines 282-299 at the array level: `buildQuery` allocates `fields`/`dates`
as fresh empty arrays and `q`/`fl`/`fq` as fresh `slice()` copies of the base
filter arrays, then folds the widgets' `alterQuery` appends over the object. -/
def buildQueryR (h : Heap) (f : FiltersR) (ws : List WidgetEff) : Heap × QueryObjR :=
  let p1 := allocH h []
  let p2 := allocH p1.1 []
  let p3 := allocH p2.1 (readH p2.1 f.q)
  let p4 := allocH p3.1 (readH p3.1 f.fl)
  let p5 := allocH p4.1 (readH p4.1 f.fq)
  let qo : QueryObjR := { fields := p1.2, dates := p2.2, q := p3.2, fl := p4.2, fq := p5.2 }
  (ws.foldl (fun hh w => alterQueryR hh qo w) p5.1, qo)

/-- One request cycle at the array level: `buildQuery` (with the widgets'
`alterQuery` appends), then `buildQueryString`, whose only array write is
`queryObj.fl.push('id')` (line 337), then `saveQueryToHash`, which only reads
(lines 256-264). -/
def requestCycleR (h : Heap) (f : FiltersR) (ws : List WidgetEff) : Heap × QueryObjR :=
  let b := buildQueryR h f ws
  (appendH b.1 b.2.fl ["id"], b.2)

end Alias

/-- Every accumulation loop `for .. { query += f(x) }` of the source denotes
appending the concatenation of the images. -/
theorem foldl_concatMapStr (f : α → String) (l : List α) : ∀ init : String,
    l.foldl (fun acc x => acc ++ f x) init = init ++ concatMapStr f l := by
  induction l with
  | nil =>
    intro init
    show init = init ++ concatMapStr f []
    rw [show concatMapStr f ([] : List α) = "" from rfl, String.append_empty]
  | cons x l ih =>
    intro init
    show l.foldl _ (init ++ f x) = _
    rw [ih]
    have h2 : concatMapStr f (x :: l) = f x ++ concatMapStr f l := by
      show l.foldl _ ("" ++ f x) = _
      rw [ih, String.empty_append]
    rw [h2, String.append_assoc]

/-- The decimal-expansion worker does not depend on the fuel, as long as the
fuel exceeds the number. -/
theorem natToCharsAux_eq : ∀ f g n : Nat, n < f → n < g →
    natToCharsAux f n = natToCharsAux g n := by
  intro f
  induction f with
  | zero => intro g n hf; omega
  | succ f ih =>
    intro g n hf hg
    cases g with
    | zero => omega
    | succ g =>
      show (if n < 10 then _ else _) = (if n < 10 then _ else _)
      by_cases h : n < 10
      · rw [if_pos h, if_pos h]
      · rw [if_neg h, if_neg h]
        have hdiv : n / 10 < n := Nat.div_lt_self (by omega) (by omega)
        rw [ih g (n / 10) (by omega) (by omega)]

/-- The defining unfolding of `natToChars`. -/
theorem natToChars_eq (n : Nat) :
    natToChars n = if n < 10 then [digitChar n] else natToChars (n / 10) ++ [digitChar (n % 10)] := by
  show (if n < 10 then _ else natToCharsAux n (n / 10) ++ _) = _
  by_cases h : n < 10
  · rw [if_pos h, if_pos h]
  · rw [if_neg h, if_neg h]
    have hdiv : n / 10 < n := Nat.div_lt_self (by omega) (by omega)
    rw [natToCharsAux_eq n (n / 10 + 1) (n / 10) (by omega) (by omega)]
    rfl

/-- The fold of `Widget.selectItems` never changes the widget's id. -/
theorem widgetFoldId : ∀ (items : List String) (p : Widget × Bool),
    ((items.foldl
      (fun p it =>
        if p.1.selection.contains it then p
        else ({ p.1 with selection := p.1.selection ++ [it] }, true)) p).1).id = p.1.id := by
  intro items
  induction items with
  | nil => intro p; rfl
  | cons it items ih =>
    intro p
    rw [List.foldl_cons, ih]
    by_cases h : it ∈ p.1.selection <;> simp [h]

/-- `selectItems` preserves the widget's id. -/
theorem Widget.selectItems_id (w : Widget) (items : List String) :
    ((w.selectItems items).1).id = w.id := by
  unfold Widget.selectItems
  exact widgetFoldId items (w, false)

/-- The fold of `Widget.selectItems` never changes the `alter` behaviour. -/
theorem widgetFoldAlter : ∀ (items : List String) (p : Widget × Bool),
    ((items.foldl
      (fun p it =>
        if p.1.selection.contains it then p
        else ({ p.1 with selection := p.1.selection ++ [it] }, true)) p).1).alter = p.1.alter := by
  intro items
  induction items with
  | nil => intro p; rfl
  | cons it items ih =>
    intro p
    rw [List.foldl_cons, ih]
    by_cases h : it ∈ p.1.selection <;> simp [h]

/-- `selectItems` on a single item that is not yet selected appends it. -/
theorem Widget.selectItems_single (w : Widget) (v : String)
    (h : v ∉ w.selection) :
    (w.selectItems [v]).1 = { w with selection := w.selection ++ [v] } := by
  unfold Widget.selectItems
  simp [h]

/-- An id that answers false to `hasWidget` has no registry entry. -/
theorem findWidget_eq_none (m : Manager) (wid : String)
    (h : m.hasWidget wid = false) : m.findWidget wid = none := by
  unfold Manager.hasWidget at h
  unfold Manager.findWidget
  rw [List.find?_eq_none]
  intro w hw hp
  rw [List.any_eq_false] at h
  exact h w hw hp

/-- C2: `buildQuery(s)` returns a fresh query object whose `q`, `fl`, `fq`
are the (by-value) copies of the manager-level base filters, with
`start = s`, `rows = 0`, empty `fields` and `dates` (and no `sort`), and then
folds every registered widget's `alterQuery` over that object exactly once,
in registration (insertion) order, before returning. -/
theorem c2_buildQuery_fold (m : Manager) (s : JsInt) :
    m.buildQuery s =
      m.widgets.foldl (fun qo w => w.alter w.selection qo)
        { fields := []
          dates := []
          q := m.filters.q
          fl := m.filters.fl
          fq := m.filters.fq
          start := s
          rows := 0
          sort := none } := rfl

/-- C9: `buildQueryString` mutates its argument — it appends `id` to
`queryObj.fl` in place (line 337), so serializing the same object twice
leaves `id` in the field list twice, and the field lists of the two passes
differ; serialization is neither side-effect free nor idempotent on its
argument. -/
theorem c9_serialize_mutates (c : Codecs) (hlFl : String) (qo : QueryObj) (skip : Bool) :
    (buildQueryString c hlFl qo skip).2 = { qo with fl := qo.fl ++ ["id"] } ∧
    ((buildQueryString c hlFl ((buildQueryString c hlFl qo skip).2) skip).2).fl
      = qo.fl ++ ["id", "id"] ∧
    ((buildQueryString c hlFl ((buildQueryString c hlFl qo skip).2) skip).2).fl
      ≠ ((buildQueryString c hlFl qo skip).2).fl := by
  refine ⟨rfl, ?_, ?_⟩
  · show (qo.fl ++ ["id"]) ++ ["id"] = qo.fl ++ ["id", "id"]
    simp
  · show (qo.fl ++ ["id"]) ++ ["id"] ≠ qo.fl ++ ["id"]
    intro h
    have h2 := congrArg List.length h
    simp at h2

/-- C10: the selection-mutation entry points look the widget up with a plain
member access, so an unregistered id makes `selectItems`, `deselectItems` and
`deselectWidget` fail (`none`, the TypeError of `undefined.member`) rather
than no-op — unlike the fragment decoder, whose `fq=` route checks
registration first and leaves the manager untouched for an unknown widget id. -/
theorem c10_unregistered_fails (m : Manager) (wid : String) (items : List String)
    (c : Codecs) (s : List Char) (h : m.hasWidget wid = false) :
    m.selectItems wid items = none ∧
    m.deselectItems wid items = none ∧
    m.deselectWidget wid = none ∧
    (m.hasWidget (c.fqParseHash (String.mk s)).widgetId = false →
      loadSegment c m (['f', 'q', '='] ++ s) = m) := by
  have hf := findWidget_eq_none m wid h
  refine ⟨?_, ?_, ?_, ?_⟩
  · unfold Manager.selectItems; rw [hf]
  · unfold Manager.deselectItems; rw [hf]
  · unfold Manager.deselectWidget; rw [hf]
  · intro h2
    unfold loadSegment
    have ht : (['f', 'q', '='] ++ s).take 3 = ['f', 'q', '='] := by
      simp [List.take_succ_cons]
    have hd : (['f', 'q', '='] ++ s).drop 3 = s := by
      simp [List.drop_succ_cons]
    rw [if_pos ht, hd]
    simp [h2]

/-- Closed witness for `c10_unregistered_fails`: a manager with only the
`text` widget registered, probed at the unregistered id `facets`. -/
theorem c10_unregistered_witness :
    scenarioManager.hasWidget "facets" = false ∧
    scenarioManager.selectItems "facets" ["x"] = none ∧
    scenarioManager.deselectItems "facets" ["x"] = none ∧
    scenarioManager.deselectWidget "facets" = none ∧
    (scenarioManager.hasWidget (sampleCodecs.fqParseHash (String.mk "ghost:f:v".data)).widgetId = false →
      loadSegment sampleCodecs scenarioManager (['f', 'q', '='] ++ "ghost:f:v".data) = scenarioManager) := by
  have h : scenarioManager.hasWidget "facets" = false := by decide
  have r := c10_unregistered_fails scenarioManager "facets" ["x"] sampleCodecs "ghost:f:v".data h
  exact ⟨h, r.1, r.2.1, r.2.2.1, r.2.2.2⟩

/-- C7, counterexample: `selectOnlyItems` does not clear the kept widget
before applying `selectItems`, so a widget `w` that already holds `a` ends
with `["a", "b"]` after `selectOnlyItems("w", ["b"])` — not exactly the given
items. -/
theorem c7_selectOnly_cex :
    ((Manager.selectOnlyItems
        { filters := { q := [], fq := [], fl := [] }
          hlFl := "body"
          widgets := [inertWidget "w" ["a"]]
          start := some 0
          hash := "" }
        "w" ["b"]).1.widgets.map (fun w => w.selection)) = [["a", "b"]] ∧
    (["a", "b"] : List String) ≠ ["b"] := by
  exact ⟨rfl, by decide⟩

/-- C7, amended: `selectOnlyItems(keepId, items)` clears the selection of
every registered widget except `keepId`, ADDS the given items to `keepId`'s
existing selection through the widget's `selectItems` mutator (so exactly the
given items remain only when the prior selection is contained in them), and
then runs one request with start offset 0. -/
theorem c7_selectOnly_amended (m : Manager) (keepId : String) (items : List String) :
    (m.selectOnlyItems keepId items).2 = [0] ∧
    (m.selectOnlyItems keepId items).1.widgets.map (fun w => (w.id, w.selection)) =
      m.widgets.map (fun w =>
        (w.id, if w.id = keepId then ((w.selectItems items).1).selection else [])) := by
  refine ⟨rfl, ?_⟩
  show (m.widgets.map _).map _ = _
  rw [List.map_map]
  apply List.map_congr_left
  intro w _
  by_cases h : w.id = keepId
  · simp only [Function.comp, h, if_pos]
    rw [Widget.selectItems_id, h]
  · simp only [Function.comp]
    rw [if_neg h, if_neg h]
    rfl

/-- C5, counterexample: a `start=` segment whose remainder is not a valid
integer does NOT leave the manager unchanged — `parseInt` yields `NaN`
(modelled `none`), which is stored into the start offset (line 246),
replacing the previous `some 0`. -/
theorem c5_malformed_start_cex :
    (loadQueryFromHash sampleCodecs "#start=x"
      { filters := { q := [], fq := [], fl := [] }
        hlFl := "body"
        widgets := []
        start := some 0
        hash := "" }).start = none ∧
    (none : JsInt) ≠ some 0 := by
  exact ⟨rfl, by decide⟩

/-- C5, amended: a fragment segment that begins with none of `fq=`, `q=` and
`start=` leaves all manager and widget state unchanged and raises no error; a
`start=` segment, by contrast, always stores `parseInt` of its remainder —
`NaN` when the remainder holds no leading integer — so a malformed `start=`
segment does change the manager's start offset. -/
theorem c5_other_segments_ignored (c : Codecs) (m : Manager) (v : List Char)
    (h1 : v.take 3 ≠ ['f', 'q', '=']) (h2 : v.take 2 ≠ ['q', '='])
    (h3 : v.take 6 ≠ ['s', 't', 'a', 'r', 't', '=']) :
    loadSegment c m v = m := by
  unfold loadSegment
  rw [if_neg h1, if_neg h2, if_neg h3]

/-- Closed witness for `c5_other_segments_ignored`: the unrecognized segment
`rows=9` leaves the scenario manager untouched. -/
theorem c5_other_segments_witness :
    "rows=9".data.take 3 ≠ ['f', 'q', '='] ∧
    "rows=9".data.take 2 ≠ ['q', '='] ∧
    "rows=9".data.take 6 ≠ ['s', 't', 'a', 'r', 't', '='] ∧
    loadSegment sampleCodecs scenarioManager "rows=9".data = scenarioManager :=
  ⟨by decide, by decide, by decide,
    c5_other_segments_ignored sampleCodecs scenarioManager "rows=9".data
      (by decide) (by decide) (by decide)⟩

/-- C6, counterexample: in the spec's concrete scenario the serialized
backend string does NOT contain `q=cats%20` — the separator appended after
each term by `buildQueryString` (line 333) is a literal space, outside the
item encoder, and the backend encoding of `cats` is `cats`. -/
theorem c6_scenario_cex :
    hasSub scenarioSerialized.1.data "q=cats%20".data = false := by
  decide

/-- C6, amended: in the concrete scenario (base filters
`{q: [], fq: [], fl: ["title"]}`, one registered widget `text` appending its
selected terms to `q`), selecting `cats` on `text` changes the widget's
selection and issues one request at start 0; the built query has
`q = ["cats"]` and `start = 0`; serialization appends `id`, so the query
object's `fl` becomes `["title", "id"]`; the serialized backend string
contains `q=cats ` (with a literal trailing space, not `%20`) and
`fl=title,id`; and the persisted fragment is `#q=cats&start=0`. -/
theorem c6_scenario_amended :
    Manager.selectItems scenarioManager "text" ["cats"] = some (scenarioAfterSelect, [0]) ∧
    scenarioQuery.q = [{ value := "cats" }] ∧
    scenarioQuery.start = some 0 ∧
    scenarioSerialized.2.fl = ["title", "id"] ∧
    scenarioSerialized.1 =
      "facet=true&facet.limit=40&facet.sort=true&facet.mincount=1&hl=true&q=cats &fl=title,id&rows=0&start=0&hl.fl=body" ∧
    hasSub scenarioSerialized.1.data "q=cats ".data = true ∧
    hasSub scenarioSerialized.1.data "fl=title,id".data = true ∧
    scenarioFragment = "#q=cats&start=0" := by
  refine ⟨rfl, by decide, by decide, by decide, by decide, by decide, by decide, by decide⟩

/-- C1: `buildQueryString` produces the backend string in exactly the claimed
order — the fixed facet/highlight prefix, one `facet.field=` per `fields`
entry, the four date parameters per `dates` entry, one `fq=` per filter, a
single `q=` parameter holding every term's encoded value followed by a
literal space (empty when `q` is empty), `fl=` with `id` appended to the
field list before comma-joining, `rows=`, `start=`, `sort=` only when a sort
expression is present (JS truthiness: absent or empty means no parameter),
and finally `hl.fl=` with the configured highlight field. -/
theorem c1_buildQueryString_shape (c : Codecs) (hlFl : String) (qo : QueryObj) (skip : Bool) :
    (buildQueryString c hlFl qo skip).1 =
      "facet=true&facet.limit=40&facet.sort=true&facet.mincount=1&hl=true" ++
      concatMapStr (fun f => "&facet.field=" ++ c.urlencode f skip) qo.fields ++
      concatMapStr (fun d =>
        "&facet.date=" ++ c.urlencode d.field skip ++
        "&f." ++ d.field ++ ".facet.date.start=" ++ c.urlencode d.start skip ++
        "&f." ++ d.field ++ ".facet.date.end=" ++ c.urlencode d.end_ skip ++
        "&f." ++ d.field ++ ".facet.date.gap=" ++ c.urlencode d.gap skip) qo.dates ++
      concatMapStr (fun it => "&fq=" ++ c.fqToSolr it skip) qo.fq ++
      "&q=" ++ concatMapStr (fun it => c.qToSolr it skip ++ " ") qo.q ++
      "&fl=" ++ String.intercalate "," (qo.fl ++ ["id"]) ++
      "&rows=" ++ jsToString (some qo.rows) ++
      "&start=" ++ jsToString qo.start ++
      sortParamStr qo.sort ++
      "&hl.fl=" ++ hlFl := by
  show (let query := "facet=true&facet.limit=40&facet.sort=true&facet.mincount=1&hl=true"
        let query := qo.fields.foldl
          (fun acc f => acc ++ ("&facet.field=" ++ c.urlencode f skip)) query
        let query := qo.dates.foldl
          (fun acc d => acc ++
            ("&facet.date=" ++ c.urlencode d.field skip ++
             "&f." ++ d.field ++ ".facet.date.start=" ++ c.urlencode d.start skip ++
             "&f." ++ d.field ++ ".facet.date.end=" ++ c.urlencode d.end_ skip ++
             "&f." ++ d.field ++ ".facet.date.gap=" ++ c.urlencode d.gap skip)) query
        let query := qo.fq.foldl
          (fun acc it => acc ++ ("&fq=" ++ c.fqToSolr it skip)) query
        let qstr := qo.q.foldl (fun acc it => acc ++ (c.qToSolr it skip ++ " ")) ""
        let query := query ++ ("&q=" ++ qstr)
        let query := query ++ ("&fl=" ++ String.intercalate "," (qo.fl ++ ["id"]))
        let query := query ++ ("&rows=" ++ jsToString (some qo.rows))
        let query := query ++ ("&start=" ++ jsToString qo.start)
        let query :=
          match qo.sort with
          | some s => if s = "" then query else query ++ ("&sort=" ++ s)
          | none => query
        query ++ ("&hl.fl=" ++ hlFl)) = _
  simp only [foldl_concatMapStr, String.empty_append]
  have hsort : ∀ query : String,
      (match qo.sort with
       | some s => if s = "" then query else query ++ ("&sort=" ++ s)
       | none => query) = query ++ sortParamStr qo.sort := by
    cases qo.sort with
    | none => intro query; rw [show sortParamStr none = "" from rfl, String.append_empty]
    | some s =>
      intro query
      show (if s = "" then query else query ++ ("&sort=" ++ s)) =
        query ++ (if s = "" then "" else "&sort=" ++ s)
      by_cases he : s = ""
      · rw [if_pos he, if_pos he, String.append_empty]
      · rw [if_neg he, if_neg he]
  rw [hsort]
  simp only [String.append_assoc]

/-- C4: `loadQueryFromHash` first resets every registered widget to the empty
selection exactly when the live fragment is non-empty, then splits the
fragment past the `#` on `&` and dispatches every segment by literal prefix:
an `fq=` segment is routed to the widget whose id the decoded item names
(dropped when no such widget is registered), a `q=` segment is routed to the
widget registered under the fixed id `text` (dropped when absent), and a
`start=` segment is parsed with `parseInt` and stored as the pending start
offset. -/
theorem c4_decode_dispatch (c : Codecs) (m : Manager) (locationHash : String) (v : List Char) :
    (loadQueryFromHash c locationHash m =
      (splitOnCh '&' (locationHash.data.drop 1)).foldl (loadSegment c)
        (if locationHash.length ≠ 0 then resetAll m else m)) ∧
    (resetAll m).widgets.map (fun w => (w.id, w.selection)) =
      m.widgets.map (fun w => (w.id, [])) ∧
    (loadSegment c m (['f', 'q', '='] ++ v) =
      (if m.hasWidget (c.fqParseHash (String.mk v)).widgetId then
        selectOnWidget m (c.fqParseHash (String.mk v)).widgetId
          [(c.fqParseHash (String.mk v)).value]
      else m)) ∧
    (loadSegment c m (['q', '='] ++ v) =
      (if m.hasWidget "text" then
        selectOnWidget m "text" [(c.qParseHash (String.mk v)).value]
      else m)) ∧
    (loadSegment c m (['s', 't', 'a', 'r', 't', '='] ++ v) =
      { m with start := jsParseInt v }) := by
  refine ⟨rfl, ?_, ?_, ?_, ?_⟩
  · show (m.widgets.map _).map _ = _
    rw [List.map_map]
    apply List.map_congr_left
    intro w _
    rfl
  · have ht : (['f', 'q', '='] ++ v).take 3 = ['f', 'q', '='] := by
      simp [List.take_succ_cons]
    have hd : (['f', 'q', '='] ++ v).drop 3 = v := by
      simp [List.drop_succ_cons]
    unfold loadSegment
    rw [if_pos ht, hd]
  · have h1 : (['q', '='] ++ v).take 3 ≠ ['f', 'q', '='] := by
      intro h
      rw [show (['q', '='] ++ v).take 3 = 'q' :: '=' :: v.take 1 by simp [List.take_succ_cons]] at h
      injection h with h
      exact absurd h (by decide)
    have ht : (['q', '='] ++ v).take 2 = ['q', '='] := by
      simp [List.take_succ_cons]
    have hd : (['q', '='] ++ v).drop 2 = v := by
      simp [List.drop_succ_cons]
    unfold loadSegment
    rw [if_neg h1, if_pos ht, hd]
  · have h1 : (['s', 't', 'a', 'r', 't', '='] ++ v).take 3 ≠ ['f', 'q', '='] := by
      intro h
      rw [show (['s', 't', 'a', 'r', 't', '='] ++ v).take 3 = ['s', 't', 'a'] by
        simp [List.take_succ_cons]] at h
      injection h with h
      exact absurd h (by decide)
    have h2 : (['s', 't', 'a', 'r', 't', '='] ++ v).take 2 ≠ ['q', '='] := by
      intro h
      rw [show (['s', 't', 'a', 'r', 't', '='] ++ v).take 2 = ['s', 't'] by
        simp [List.take_succ_cons]] at h
      injection h with h
      exact absurd h (by decide)
    have ht : (['s', 't', 'a', 'r', 't', '='] ++ v).take 6 = ['s', 't', 'a', 'r', 't', '='] := by
      simp [List.take_succ_cons]
    have hd : (['s', 't', 'a', 'r', 't', '='] ++ v).drop 6 = v := by
      simp [List.drop_succ_cons]
    unfold loadSegment
    rw [if_neg h1, if_neg h2, if_pos ht, hd]

/-- Reading below the written cell is unaffected by a write. -/
theorem Alias.readH_write_ne (h : Alias.Heap) (r2 : Nat) (v : List String)
    (r : Nat) (hne : r2 ≠ r) :
    Alias.readH (Alias.writeH h r2 v) r = Alias.readH h r := by
  unfold Alias.readH Alias.writeH
  rw [List.getElem?_set_ne hne]

/-- Appending to a different array leaves a cell unchanged. -/
theorem Alias.readH_appendH_ne (h : Alias.Heap) (r2 : Nat) (xs : List String)
    (r : Nat) (hne : r2 ≠ r) :
    Alias.readH (Alias.appendH h r2 xs) r = Alias.readH h r :=
  Alias.readH_write_ne h r2 _ r hne

/-- Extending the store with fresh arrays leaves existing cells unchanged. -/
theorem Alias.readH_extend (h h2 : Alias.Heap) (r : Nat) (hr : r < h.length) :
    Alias.readH (h ++ h2) r = Alias.readH h r := by
  unfold Alias.readH
  rw [List.getElem?_append_left hr]

/-- One widget's `alterQuery` appends touch only the query object's arrays. -/
theorem Alias.alter_read_other (h : Alias.Heap) (qo : Alias.QueryObjR) (w : Alias.WidgetEff)
    (r : Nat) (h1 : qo.fields ≠ r) (h2 : qo.dates ≠ r) (h3 : qo.q ≠ r)
    (h4 : qo.fl ≠ r) (h5 : qo.fq ≠ r) :
    Alias.readH (Alias.alterQueryR h qo w) r = Alias.readH h r := by
  unfold Alias.alterQueryR
  rw [Alias.readH_appendH_ne _ _ _ _ h5, Alias.readH_appendH_ne _ _ _ _ h4,
    Alias.readH_appendH_ne _ _ _ _ h3, Alias.readH_appendH_ne _ _ _ _ h2,
    Alias.readH_appendH_ne _ _ _ _ h1]

/-- Folding every widget's `alterQuery` appends touches only the query
object's arrays. -/
theorem Alias.fold_alter_read_other (qo : Alias.QueryObjR) (r : Nat)
    (h1 : qo.fields ≠ r) (h2 : qo.dates ≠ r) (h3 : qo.q ≠ r)
    (h4 : qo.fl ≠ r) (h5 : qo.fq ≠ r) :
    ∀ (ws : List Alias.WidgetEff) (h : Alias.Heap),
      Alias.readH (ws.foldl (fun hh w => Alias.alterQueryR hh qo w) h) r = Alias.readH h r := by
  intro ws
  induction ws with
  | nil => intro h; rfl
  | cons w ws ih =>
    intro h
    rw [List.foldl_cons, ih]
    exact Alias.alter_read_other h qo w r h1 h2 h3 h4 h5

/-- The references `buildQuery` hands to the widgets are the five freshly
allocated arrays, all past the end of the incoming store. -/
theorem Alias.buildQueryR_refs (h : Alias.Heap) (f : Alias.FiltersR) (ws : List Alias.WidgetEff) :
    (Alias.buildQueryR h f ws).2 =
      { fields := h.length, dates := h.length + 1, q := h.length + 2,
        fl := h.length + 3, fq := h.length + 4 } := by
  unfold Alias.buildQueryR Alias.allocH
  simp only []
  congr 1 <;> simp only [List.length_append, List.length_cons, List.length_nil]

/-- Cells below the incoming store's end are untouched by `buildQuery` and
the widget passes. -/
theorem Alias.buildQueryR_read_lo (h : Alias.Heap) (f : Alias.FiltersR)
    (ws : List Alias.WidgetEff) (r : Nat) (hr : r < h.length) :
    Alias.readH (Alias.buildQueryR h f ws).1 r = Alias.readH h r := by
  unfold Alias.buildQueryR Alias.allocH
  simp only []
  refine Eq.trans (Alias.fold_alter_read_other _ r ?_ ?_ ?_ ?_ ?_ ws _) ?_
  · simp only [List.length_append, List.length_cons, List.length_nil]; omega
  · simp only [List.length_append, List.length_cons, List.length_nil]; omega
  · simp only [List.length_append, List.length_cons, List.length_nil]; omega
  · simp only [List.length_append, List.length_cons, List.length_nil]; omega
  · simp only [List.length_append, List.length_cons, List.length_nil]; omega
  · refine Eq.trans (Alias.readH_extend _ _ r ?_)
      (Eq.trans (Alias.readH_extend _ _ r ?_)
        (Eq.trans (Alias.readH_extend _ _ r ?_)
          (Eq.trans (Alias.readH_extend _ _ r ?_)
            (Alias.readH_extend _ _ r ?_))))
    · simp only [List.length_append, List.length_cons, List.length_nil]; omega
    · simp only [List.length_append, List.length_cons, List.length_nil]; omega
    · simp only [List.length_append, List.length_cons, List.length_nil]; omega
    · simp only [List.length_append, List.length_cons, List.length_nil]; omega
    · omega

/-- C8: over a whole request cycle — `buildQuery`, arbitrary widget
`alterQuery` appends, `buildQueryString`'s in-place `fl.push('id')`, and the
read-only `saveQueryToHash` — the manager-level base filter arrays `q`, `fq`
and `fl` keep their contents: the query object's arrays are fresh `slice()`
copies, never the live base arrays. -/
theorem c8_base_filters_preserved (h : Alias.Heap) (f : Alias.FiltersR)
    (ws : List Alias.WidgetEff)
    (hq : f.q < h.length) (hfq : f.fq < h.length) (hfl : f.fl < h.length) :
    Alias.readH (Alias.requestCycleR h f ws).1 f.q = Alias.readH h f.q ∧
    Alias.readH (Alias.requestCycleR h f ws).1 f.fq = Alias.readH h f.fq ∧
    Alias.readH (Alias.requestCycleR h f ws).1 f.fl = Alias.readH h f.fl ∧
    (Alias.requestCycleR h f ws).2.q ≠ f.q ∧
    (Alias.requestCycleR h f ws).2.fq ≠ f.fq ∧
    (Alias.requestCycleR h f ws).2.fl ≠ f.fl := by
  have key : ∀ r : Nat, r < h.length →
      Alias.readH (Alias.requestCycleR h f ws).1 r = Alias.readH h r := by
    intro r hr
    have step1 : Alias.readH (Alias.requestCycleR h f ws).1 r
        = Alias.readH (Alias.buildQueryR h f ws).1 r := by
      show Alias.readH (Alias.appendH (Alias.buildQueryR h f ws).1
        (Alias.buildQueryR h f ws).2.fl ["id"]) r = _
      apply Alias.readH_appendH_ne
      rw [Alias.buildQueryR_refs]
      show h.length + 3 ≠ r
      omega
    rw [step1]
    exact Alias.buildQueryR_read_lo h f ws r hr
  have refs := Alias.buildQueryR_refs h f ws
  refine ⟨key f.q hq, key f.fq hfq, key f.fl hfl, ?_, ?_, ?_⟩
  · show (Alias.buildQueryR h f ws).2.q ≠ f.q
    rw [refs]; show h.length + 2 ≠ f.q; omega
  · show (Alias.buildQueryR h f ws).2.fq ≠ f.fq
    rw [refs]; show h.length + 4 ≠ f.fq; omega
  · show (Alias.buildQueryR h f ws).2.fl ≠ f.fl
    rw [refs]; show h.length + 3 ≠ f.fl; omega

/-- Closed witness for `c8_base_filters_preserved`: a three-array store whose
cells are the base filters, one widget appending to every array. -/
theorem c8_base_filters_witness :
    (0 < ([["a"], ["b"], ["c"]] : Alias.Heap).length ∧
      1 < ([["a"], ["b"], ["c"]] : Alias.Heap).length ∧
      2 < ([["a"], ["b"], ["c"]] : Alias.Heap).length) ∧
    Alias.readH (Alias.requestCycleR [["a"], ["b"], ["c"]] { q := 0, fq := 1, fl := 2 }
      [{ toFields := ["f"], toDates := ["d"], toQ := ["x"], toFl := ["y"], toFq := ["z"] }]).1 0 =
      Alias.readH [["a"], ["b"], ["c"]] 0 := by
  refine ⟨⟨by decide, by decide, by decide⟩, ?_⟩
  exact (c8_base_filters_preserved [["a"], ["b"], ["c"]] { q := 0, fq := 1, fl := 2 }
    [{ toFields := ["f"], toDates := ["d"], toQ := ["x"], toFl := ["y"], toFq := ["z"] }]
    (by decide) (by decide) (by decide)).1

/-- The decimal digit characters are in the ASCII digit range and decode to
their value. -/
theorem digitChar_facts (d : Nat) (hd : d < 10) :
    48 ≤ (digitChar d).toNat ∧ (digitChar d).toNat ≤ 57 ∧ (digitChar d).toNat - 48 = d := by
  interval_cases d <;> exact ⟨by decide, by decide, by decide⟩

/-- Every character of a decimal expansion is an ASCII digit. -/
theorem natToChars_digits (n : Nat) : ∀ cch ∈ natToChars n, 48 ≤ cch.toNat ∧ cch.toNat ≤ 57 := by
  induction n using Nat.strong_induction_on with
  | _ n ih =>
    rw [natToChars_eq]
    by_cases h : n < 10
    · rw [if_pos h]
      intro cch hc
      rw [List.mem_singleton] at hc
      subst hc
      exact ⟨(digitChar_facts n h).1, (digitChar_facts n h).2.1⟩
    · rw [if_neg h]
      intro cch hc
      rw [List.mem_append] at hc
      rcases hc with hc | hc
      · exact ih (n / 10) (Nat.div_lt_self (by omega) (by omega)) cch hc
      · rw [List.mem_singleton] at hc
        subst hc
        have h2 := digitChar_facts (n % 10) (Nat.mod_lt n (by omega))
        exact ⟨h2.1, h2.2.1⟩

/-- The decimal expansion is never empty. -/
theorem natToChars_ne_nil (n : Nat) : natToChars n ≠ [] := by
  rw [natToChars_eq]
  by_cases h : n < 10
  · rw [if_pos h]; simp
  · rw [if_neg h]; simp

/-- On a list of ASCII digits, `takeDigits` decodes every character. -/
theorem takeDigits_all (l : List Char) (hl : ∀ cch ∈ l, 48 ≤ cch.toNat ∧ cch.toNat ≤ 57) :
    takeDigits 10 l = l.map (fun cch => cch.toNat - 48) := by
  induction l with
  | nil => rfl
  | cons cch l ih =>
    have hc := hl cch (by simp)
    have hv : digitValIn 10 cch = some (cch.toNat - 48) := by
      unfold digitValIn
      simp only []
      rw [if_pos ⟨hc.1, hc.2⟩]
      show (if cch.toNat - 48 < 10 then some (cch.toNat - 48) else none) = some (cch.toNat - 48)
      rw [if_pos (by omega)]
    rw [show takeDigits 10 (cch :: l) =
      (match digitValIn 10 cch with
       | some d => d :: takeDigits 10 l
       | none => []) from rfl]
    rw [hv]
    rw [ih (fun x hx => hl x (by simp [hx]))]
    rfl

/-- Value of the decimal expansion under the digit fold. -/
theorem natToChars_val (n : Nat) : ∀ acc : Nat,
    ((natToChars n).map (fun cch => cch.toNat - 48)).foldl (fun a d => a * 10 + d) acc =
      acc * 10 ^ (natToChars n).length + n := by
  induction n using Nat.strong_induction_on with
  | _ n ih =>
    intro acc
    rw [natToChars_eq]
    by_cases h : n < 10
    · rw [if_pos h]
      rw [List.map_singleton, List.foldl_cons, List.foldl_nil, List.length_singleton]
      rw [(digitChar_facts n h).2.2]
      simp [pow_one]
    · rw [if_neg h]
      rw [List.map_append, List.foldl_append]
      rw [ih (n / 10) (Nat.div_lt_self (by omega) (by omega)) acc]
      rw [List.map_singleton, List.foldl_cons, List.foldl_nil]
      rw [(digitChar_facts (n % 10) (Nat.mod_lt n (by omega))).2.2]
      rw [List.length_append, List.length_singleton, pow_succ]
      have hdm := Nat.div_add_mod n 10
      generalize (10 : Nat) ^ (natToChars (n / 10)).length = P
      rw [← Nat.mul_assoc]
      omega

/-- `parseRadix 10` inverts the decimal expansion. -/
theorem parseRadix_natToChars (n : Nat) : parseRadix 10 (natToChars n) = some n := by
  unfold parseRadix
  rw [takeDigits_all _ (natToChars_digits n)]
  simp only []
  rw [if_neg (by simp [natToChars_ne_nil n])]
  rw [natToChars_val n 0]
  simp

/-- `parseNatLead` inverts the decimal expansion (it never sees a hex prefix:
the second character, when present, is a digit). -/
theorem parseNatLead_natToChars (n : Nat) : parseNatLead (natToChars n) = some n := by
  rcases hnc : natToChars n with _ | ⟨a, rest1⟩
  · exact absurd hnc (natToChars_ne_nil n)
  rcases rest1 with _ | ⟨b, rest⟩
  · show parseRadix 10 [a] = some n
    rw [← hnc, parseRadix_natToChars]
  · show (if a = '0' ∧ (b = 'x' ∨ b = 'X') then parseRadix 16 rest
      else parseRadix 10 (a :: b :: rest)) = some n
    have hb : 48 ≤ b.toNat ∧ b.toNat ≤ 57 := natToChars_digits n b (by rw [hnc]; simp)
    rw [if_neg ?_]
    · rw [← hnc, parseRadix_natToChars]
    · rintro ⟨_, hx | hx⟩ <;> subst hx
      · exact absurd hb.2 (by decide)
      · exact absurd hb.2 (by decide)

/-- ASCII digits are not ECMAScript whitespace. -/
theorem digit_not_space (a : Char) (h48 : 48 ≤ a.toNat) (h57 : a.toNat ≤ 57) :
    isJsSpace a = false := by
  unfold isJsSpace
  simp only [Bool.or_eq_false_iff, decide_eq_false_iff_not]
  omega

/-- `parseInt` inverts the decimal expansion of a natural number. -/
theorem jsParseInt_natToChars (n : Nat) : jsParseInt (natToChars n) = some (n : Int) := by
  rcases hnc : natToChars n with _ | ⟨a, rest⟩
  · exact absurd hnc (natToChars_ne_nil n)
  have ha : 48 ≤ a.toNat ∧ a.toNat ≤ 57 := natToChars_digits n a (by rw [hnc]; simp)
  unfold jsParseInt
  rw [List.dropWhile_cons, if_neg (by rw [digit_not_space a ha.1 ha.2]; simp)]
  show (if a = '-' then (parseNatLead rest).map (fun k => -(k : Int))
    else if a = '+' then (parseNatLead rest).map (fun k => (k : Int))
    else (parseNatLead (a :: rest)).map (fun k => (k : Int))) = some (n : Int)
  rw [if_neg (by rintro rfl; exact absurd ha.1 (by decide)),
    if_neg (by rintro rfl; exact absurd ha.1 (by decide))]
  rw [← hnc, parseNatLead_natToChars]
  rfl

/-- C3 infrastructure: decoding the fragment's `start=<n>` segment restores
the saved start offset, `NaN` included. -/
theorem jsToString_roundtrip (j : JsInt) : jsParseInt (jsToString j).data = j := by
  match j with
  | none => rfl
  | some i =>
    show jsParseInt (if i < 0 then "-" ++ String.mk (natToChars i.natAbs)
      else String.mk (natToChars i.natAbs)).data = some i
    by_cases hi : i < 0
    · rw [if_pos hi]
      rw [show ("-" ++ String.mk (natToChars i.natAbs)).data = '-' :: natToChars i.natAbs by
        rw [String.data_append]; rfl]
      unfold jsParseInt
      rw [List.dropWhile_cons, if_neg (by decide)]
      show (if ('-' : Char) = '-' then (parseNatLead (natToChars i.natAbs)).map (fun k => -(k : Int))
        else _) = some i
      rw [if_pos rfl, parseNatLead_natToChars]
      show some (-(i.natAbs : Int)) = some i
      congr 1
      omega
    · rw [if_neg hi]
      rw [show (String.mk (natToChars i.natAbs)).data = natToChars i.natAbs from rfl]
      rw [jsParseInt_natToChars]
      congr 1
      omega

/-- The stringified start offset never contains the separator `&`. -/
theorem jsToString_no_amp (j : JsInt) : '&' ∉ (jsToString j).data := by
  match j with
  | none => decide
  | some i =>
    show '&' ∉ (if i < 0 then "-" ++ String.mk (natToChars i.natAbs)
      else String.mk (natToChars i.natAbs)).data
    by_cases hi : i < 0
    · rw [if_pos hi]
      rw [show ("-" ++ String.mk (natToChars i.natAbs)).data = '-' :: natToChars i.natAbs by
        rw [String.data_append]; rfl]
      intro hmem
      rw [List.mem_cons] at hmem
      rcases hmem with h | h
      · exact absurd h (by decide)
      · have h2 := natToChars_digits i.natAbs '&' h
        exact absurd h2.1 (by decide)
    · rw [if_neg hi]
      intro hmem
      have h2 := natToChars_digits i.natAbs '&' hmem
      exact absurd h2.1 (by decide)

/-- A separator-free string is one whole split segment. -/
theorem splitOnCh_nosep (sep : Char) : ∀ p : List Char, sep ∉ p → splitOnCh sep p = [p] := by
  intro p
  induction p with
  | nil => intro _; rfl
  | cons cch p ih =>
    intro hp
    have hc : cch ≠ sep := fun h => hp (by simp [h])
    show (if cch = sep then [] :: splitOnCh sep p
      else match splitOnCh sep p with
      | [] => [[cch]]
      | s :: ss => (cch :: s) :: ss) = [cch :: p]
    rw [if_neg hc, ih (fun h => hp (by simp [h]))]

/-- Splitting past a separator-free segment peels it off. -/
theorem splitOnCh_sep_append (sep : Char) :
    ∀ p rest : List Char, sep ∉ p →
      splitOnCh sep (p ++ sep :: rest) = p :: splitOnCh sep rest := by
  intro p
  induction p with
  | nil =>
    intro rest _
    show (if sep = sep then [] :: splitOnCh sep rest else _) = [] :: splitOnCh sep rest
    rw [if_pos rfl]
  | cons cch p ih =>
    intro rest hp
    have hc : cch ≠ sep := fun h => hp (by simp [h])
    show (if cch = sep then [] :: splitOnCh sep (p ++ sep :: rest)
      else match splitOnCh sep (p ++ sep :: rest) with
      | [] => [[cch]]
      | s :: ss => (cch :: s) :: ss) = (cch :: p) :: splitOnCh sep rest
    rw [if_neg hc, ih rest (fun h => hp (by simp [h]))]

/-- Splitting a fragment built from `&`-terminated, `&`-free segments followed
by a tail recovers the segments. -/
theorem split_segments : ∀ (segs : List (List Char)) (tail : List Char),
    (∀ s ∈ segs, '&' ∉ s) →
    splitOnCh '&' ((segs.map (fun s => s ++ ['&'])).flatten ++ tail) =
      segs ++ splitOnCh '&' tail := by
  intro segs
  induction segs with
  | nil => intro tail _; simp
  | cons s segs ih =>
    intro tail hs
    rw [List.map_cons, List.flatten_cons]
    rw [show (s ++ ['&'] ++ (List.map (fun x => x ++ ['&']) segs).flatten ++ tail)
      = s ++ '&' :: ((List.map (fun x => x ++ ['&']) segs).flatten ++ tail) by simp]
    rw [splitOnCh_sep_append '&' s _ (hs s (by simp))]
    rw [ih tail (fun x hx => hs x (by simp [hx]))]
    rfl

/-- One fragment segment starting `fq=` decodes a filter item and routes it
into the named widget when registered (the loop body, lines 229-236). -/
theorem loadSegment_fq (c : Codecs) (m : Manager) (s : List Char) :
    loadSegment c m (['f', 'q', '='] ++ s) =
      (if m.hasWidget (c.fqParseHash (String.mk s)).widgetId then
        selectOnWidget m (c.fqParseHash (String.mk s)).widgetId
          [(c.fqParseHash (String.mk s)).value]
      else m) := by
  have ht : (['f', 'q', '='] ++ s).take 3 = ['f', 'q', '='] := by
    simp [List.take_succ_cons]
  have hd : (['f', 'q', '='] ++ s).drop 3 = s := by
    simp [List.drop_succ_cons]
  unfold loadSegment
  rw [if_pos ht, hd]

/-- One fragment segment starting `q=` decodes a query item and routes it into
the `text` widget when registered (the loop body, lines 237-244). -/
theorem loadSegment_q (c : Codecs) (m : Manager) (s : List Char) :
    loadSegment c m (['q', '='] ++ s) =
      (if m.hasWidget "text" then
        selectOnWidget m "text" [(c.qParseHash (String.mk s)).value]
      else m) := by
  have h1 : (['q', '='] ++ s).take 3 ≠ ['f', 'q', '='] := by
    intro h
    rw [show (['q', '='] ++ s).take 3 = 'q' :: '=' :: s.take 1 by simp [List.take_succ_cons]] at h
    injection h with h
    exact absurd h (by decide)
  have ht : (['q', '='] ++ s).take 2 = ['q', '='] := by
    simp [List.take_succ_cons]
  have hd : (['q', '='] ++ s).drop 2 = s := by
    simp [List.drop_succ_cons]
  unfold loadSegment
  rw [if_neg h1, if_pos ht, hd]

/-- One fragment segment starting `start=` stores `parseInt` of its remainder
(the loop body, lines 245-247). -/
theorem loadSegment_start (c : Codecs) (m : Manager) (s : List Char) :
    loadSegment c m (['s', 't', 'a', 'r', 't', '='] ++ s) =
      { m with start := jsParseInt s } := by
  have h1 : (['s', 't', 'a', 'r', 't', '='] ++ s).take 3 ≠ ['f', 'q', '='] := by
    intro h
    rw [show (['s', 't', 'a', 'r', 't', '='] ++ s).take 3 = ['s', 't', 'a'] by
      simp [List.take_succ_cons]] at h
    injection h with h
    exact absurd h (by decide)
  have h2 : (['s', 't', 'a', 'r', 't', '='] ++ s).take 2 ≠ ['q', '='] := by
    intro h
    rw [show (['s', 't', 'a', 'r', 't', '='] ++ s).take 2 = ['s', 't'] by
      simp [List.take_succ_cons]] at h
    injection h with h
    exact absurd h (by decide)
  have ht : (['s', 't', 'a', 'r', 't', '='] ++ s).take 6 = ['s', 't', 'a', 'r', 't', '='] := by
    simp [List.take_succ_cons]
  have hd : (['s', 't', 'a', 'r', 't', '='] ++ s).drop 6 = s := by
    simp [List.drop_succ_cons]
  unfold loadSegment
  rw [if_neg h1, if_neg h2, if_pos ht, hd]

/-- Registered-id test is invariant under id-preserving registry maps. -/
theorem any_id_map (l : List Widget) (g : Widget → Widget)
    (hg : ∀ w, (g w).id = w.id) (wid : String) :
    (l.map g).any (fun w => w.id = wid) = l.any (fun w => w.id = wid) := by
  induction l with
  | nil => rfl
  | cons w l ih => simp [ih, hg]

/-- Mapping an id-preserving transformation over the registry does not change
which ids are registered. -/
theorem hasWidget_map (m : Manager) (g : Widget → Widget)
    (hg : ∀ w, (g w).id = w.id) (wid : String) :
    Manager.hasWidget { m with widgets := m.widgets.map g } wid = m.hasWidget wid := by
  unfold Manager.hasWidget
  exact any_id_map m.widgets g hg wid

/-- Routing one fresh value into a widget appends it to every registry entry
carrying that id. -/
theorem selectOnWidget_fresh (m : Manager) (wid : String) (v : String)
    (hfresh : ∀ w ∈ m.widgets, w.id = wid → v ∉ w.selection) :
    selectOnWidget m wid [v] =
      { m with widgets := m.widgets.map (fun w =>
          if w.id = wid then { w with selection := w.selection ++ [v] } else w) } := by
  unfold selectOnWidget
  refine congrArg (fun ws => { m with widgets := ws }) ?_
  apply List.map_congr_left
  intro w hw
  by_cases h : w.id = wid
  · rw [if_pos h, if_pos h, Widget.selectItems_single w v (hfresh w hw h)]
  · rw [if_neg h, if_neg h]

/-- Folding the decoder over the `fq=` segments of an encoded query routes
every filter value, in order, into the widget its item names. -/
theorem foldFq (c : Codecs) : ∀ (fqs : List FilterQueryItem) (m : Manager),
    (∀ it ∈ fqs, c.fqParseHash (c.fqToHash it) = it) →
    (∀ it ∈ fqs, m.hasWidget it.widgetId = true) →
    (∀ w ∈ m.widgets,
      (w.selection ++ (fqs.filter (fun x => x.widgetId = w.id)).map (fun x => x.value)).Nodup) →
    (fqs.map (fun it => ['f', 'q', '='] ++ (c.fqToHash it).data)).foldl (loadSegment c) m =
      { m with widgets := m.widgets.map (fun w =>
          { w with selection :=
              w.selection ++ (fqs.filter (fun x => x.widgetId = w.id)).map (fun x => x.value) }) } := by
  intro fqs
  induction fqs with
  | nil =>
    intro m _ _ _
    simp only [List.map_nil, List.foldl_nil, List.filter_nil, List.append_nil]
    show m = { m with widgets := m.widgets.map (fun w => w) }
    simp
  | cons it fqs ih =>
    intro m hrt hreg hnd
    rw [List.map_cons, List.foldl_cons]
    have hp : c.fqParseHash (String.mk ((c.fqToHash it).data)) = it := by
      rw [show String.mk ((c.fqToHash it).data) = c.fqToHash it from rfl]
      exact hrt it (by simp)
    have hfresh : ∀ w ∈ m.widgets, w.id = it.widgetId → it.value ∉ w.selection := by
      intro w hw hid
      have h3 := hnd w hw
      rw [List.filter_cons, if_pos (by simp [hid]), List.map_cons, List.nodup_append] at h3
      intro hv
      exact h3.2.2 hv (by simp)
    have hstep : loadSegment c m (['f', 'q', '='] ++ (c.fqToHash it).data) =
        { m with widgets := m.widgets.map (fun w =>
            if w.id = it.widgetId then { w with selection := w.selection ++ [it.value] }
            else w) } := by
      rw [loadSegment_fq, hp, if_pos (hreg it (by simp))]
      exact selectOnWidget_fresh m it.widgetId it.value hfresh
    rw [hstep]
    have hgid : ∀ w : Widget,
        ((if w.id = it.widgetId then { w with selection := w.selection ++ [it.value] }
          else w) : Widget).id = w.id := by
      intro w
      by_cases h : w.id = it.widgetId
      · rw [if_pos h]
      · rw [if_neg h]
    have hreg2 : ∀ x ∈ fqs,
        Manager.hasWidget { m with widgets := m.widgets.map (fun w =>
          if w.id = it.widgetId then { w with selection := w.selection ++ [it.value] }
          else w) } x.widgetId = true := by
      intro x hx
      rw [hasWidget_map m _ hgid]
      exact hreg x (by simp [hx])
    have hnd2 : ∀ w2 ∈ ({ m with widgets := m.widgets.map (fun w =>
          if w.id = it.widgetId then { w with selection := w.selection ++ [it.value] }
          else w) } : Manager).widgets,
        (w2.selection ++ (fqs.filter (fun x => x.widgetId = w2.id)).map (fun x => x.value)).Nodup := by
      intro w2 hw2
      rw [show ({ m with widgets := m.widgets.map (fun w =>
          if w.id = it.widgetId then { w with selection := w.selection ++ [it.value] }
          else w) } : Manager).widgets = m.widgets.map (fun w =>
          if w.id = it.widgetId then { w with selection := w.selection ++ [it.value] }
          else w) from rfl, List.mem_map] at hw2
      obtain ⟨w, hw, rfl⟩ := hw2
      have h3 := hnd w hw
      by_cases h : w.id = it.widgetId
      · rw [if_pos h]
        rw [List.filter_cons, if_pos (by simp [h]), List.map_cons] at h3
        show ((w.selection ++ [it.value]) ++
          (fqs.filter (fun x => x.widgetId = w.id)).map (fun x => x.value)).Nodup
        rw [List.append_assoc]
        simpa using h3
      · rw [if_neg h]
        rw [List.filter_cons, if_neg (by simp only [decide_eq_true_eq]; intro he; exact h he.symm)] at h3
        exact h3
    rw [ih _ (fun x hx => hrt x (by simp [hx])) hreg2 hnd2]
    show { m with widgets := (m.widgets.map (fun (w : Widget) =>
        if w.id = it.widgetId then { w with selection := w.selection ++ [it.value] }
        else w)).map (fun (w : Widget) =>
          { w with selection := w.selection ++ (fqs.filter (fun (x : FilterQueryItem) => x.widgetId = w.id)).map (fun (x : FilterQueryItem) => x.value) }) } =
      { m with widgets := m.widgets.map (fun (w : Widget) =>
          { w with selection := w.selection ++ ((it :: fqs).filter (fun (x : FilterQueryItem) => x.widgetId = w.id)).map (fun (x : FilterQueryItem) => x.value) }) }
    refine congrArg (fun ws => { m with widgets := ws }) ?_
    rw [List.map_map]
    apply List.map_congr_left
    intro w _
    by_cases h : w.id = it.widgetId
    · simp only [Function.comp, if_pos h]
      rw [List.filter_cons, if_pos (by simp [h]), List.map_cons]
      show ({ w with selection :=
          (w.selection ++ [it.value]) ++
            (fqs.filter (fun x => x.widgetId = w.id)).map (fun x => x.value) } : Widget) =
        { w with selection :=
          w.selection ++ it.value :: (fqs.filter (fun x => x.widgetId = w.id)).map (fun x => x.value) }
      rw [List.append_assoc]
      rfl
    · simp only [Function.comp, if_neg h]
      rw [List.filter_cons, if_neg (by simp only [decide_eq_true_eq]; intro he; exact h he.symm)]

/-- Folding the decoder over the `q=` segments routes every term value, in
order, into the widget registered as `text`. -/
theorem foldQ (c : Codecs) : ∀ (qs : List QueryItem) (m : Manager),
    (∀ it ∈ qs, (c.qParseHash (c.qToHash it)).value = it.value) →
    (qs ≠ [] → m.hasWidget "text" = true) →
    (∀ w ∈ m.widgets,
      (w.selection ++ (if w.id = "text" then qs.map (fun x => x.value) else [])).Nodup) →
    (qs.map (fun it => ['q', '='] ++ (c.qToHash it).data)).foldl (loadSegment c) m =
      { m with widgets := m.widgets.map (fun w =>
          { w with selection :=
              w.selection ++ (if w.id = "text" then qs.map (fun x => x.value) else []) }) } := by
  intro qs
  induction qs with
  | nil =>
    intro m _ _ _
    simp only [List.map_nil, List.foldl_nil, ite_self, List.append_nil]
    show m = { m with widgets := m.widgets.map (fun w => w) }
    simp
  | cons it qs ih =>
    intro m hrt htext hnd
    rw [List.map_cons, List.foldl_cons]
    have hp : (c.qParseHash (String.mk ((c.qToHash it).data))).value = it.value := by
      rw [show String.mk ((c.qToHash it).data) = c.qToHash it from rfl]
      exact hrt it (by simp)
    have hfresh : ∀ w ∈ m.widgets, w.id = "text" → it.value ∉ w.selection := by
      intro w hw hid
      have h3 := hnd w hw
      rw [if_pos hid, List.map_cons, List.nodup_append] at h3
      intro hv
      exact h3.2.2 hv (by simp)
    have hstep : loadSegment c m (['q', '='] ++ (c.qToHash it).data) =
        { m with widgets := m.widgets.map (fun w =>
            if w.id = "text" then { w with selection := w.selection ++ [it.value] }
            else w) } := by
      rw [loadSegment_q, hp, if_pos (htext (by simp))]
      exact selectOnWidget_fresh m "text" it.value hfresh
    rw [hstep]
    have hgid : ∀ w : Widget,
        ((if w.id = "text" then { w with selection := w.selection ++ [it.value] }
          else w) : Widget).id = w.id := by
      intro w
      by_cases h : w.id = "text"
      · rw [if_pos h]
      · rw [if_neg h]
    have htext2 : qs ≠ [] →
        Manager.hasWidget { m with widgets := m.widgets.map (fun w =>
          if w.id = "text" then { w with selection := w.selection ++ [it.value] }
          else w) } "text" = true := by
      intro _
      rw [hasWidget_map m _ hgid]
      exact htext (by simp)
    have hnd2 : ∀ w2 ∈ ({ m with widgets := m.widgets.map (fun w =>
          if w.id = "text" then { w with selection := w.selection ++ [it.value] }
          else w) } : Manager).widgets,
        (w2.selection ++ (if w2.id = "text" then qs.map (fun x => x.value) else [])).Nodup := by
      intro w2 hw2
      rw [show ({ m with widgets := m.widgets.map (fun w =>
          if w.id = "text" then { w with selection := w.selection ++ [it.value] }
          else w) } : Manager).widgets = m.widgets.map (fun w =>
          if w.id = "text" then { w with selection := w.selection ++ [it.value] }
          else w) from rfl, List.mem_map] at hw2
      obtain ⟨w, hw, rfl⟩ := hw2
      have h3 := hnd w hw
      by_cases h : w.id = "text"
      · rw [if_pos h]
        rw [if_pos h, List.map_cons] at h3
        show ((w.selection ++ [it.value]) ++
          (if w.id = "text" then qs.map (fun x => x.value) else [])).Nodup
        rw [if_pos h, List.append_assoc]
        simpa using h3
      · rw [if_neg h]
        rw [if_neg h] at h3
        show (w.selection ++ (if w.id = "text" then qs.map (fun x => x.value) else [])).Nodup
        rw [if_neg h]
        simpa using h3
    rw [ih _ (fun x hx => hrt x (by simp [hx])) htext2 hnd2]
    show { m with widgets := (m.widgets.map (fun (w : Widget) =>
        if w.id = "text" then { w with selection := w.selection ++ [it.value] }
        else w)).map (fun (w : Widget) =>
          { w with selection := w.selection ++ (if w.id = "text" then qs.map (fun (x : QueryItem) => x.value) else []) }) } =
      { m with widgets := m.widgets.map (fun (w : Widget) =>
          { w with selection := w.selection ++ (if w.id = "text" then (it :: qs).map (fun (x : QueryItem) => x.value) else []) }) }
    refine congrArg (fun ws => { m with widgets := ws }) ?_
    rw [List.map_map]
    apply List.map_congr_left
    intro w _
    by_cases h : w.id = "text"
    · simp [Function.comp, h, List.append_assoc]
    · simp only [Function.comp, if_neg h]

/-- Unfolding of the accumulation on a cons. -/
theorem concatMapStr_cons (f : α → String) (x : α) (l : List α) :
    concatMapStr f (x :: l) = f x ++ concatMapStr f l := by
  show (x :: l).foldl (fun acc y => acc ++ f y) "" = f x ++ concatMapStr f l
  rw [List.foldl_cons, foldl_concatMapStr, String.empty_append]

/-- Character-level contents of the accumulation. -/
theorem concatMapStr_data (f : α → String) : ∀ l : List α,
    (concatMapStr f l).data = (l.map (fun x => (f x).data)).flatten := by
  intro l
  induction l with
  | nil => rfl
  | cons x l ih =>
    rw [concatMapStr_cons, String.data_append, ih, List.map_cons, List.flatten_cons]

/-- Character-level shape of the persisted fragment: a `#`, the `&`-terminated
`fq=` and `q=` segments, then the `start=` segment. -/
theorem save_data (c : Codecs) (qo : QueryObj) :
    (saveQueryToHash c qo).data =
      '#' :: ((((qo.fq.map (fun it => ['f', 'q', '='] ++ (c.fqToHash it).data)) ++
          (qo.q.map (fun it => ['q', '='] ++ (c.qToHash it).data))).map (fun s => s ++ ['&'])).flatten ++
        (['s', 't', 'a', 'r', 't', '='] ++ (jsToString qo.start).data)) := by
  unfold saveQueryToHash
  simp only []
  rw [foldl_concatMapStr, foldl_concatMapStr]
  rw [String.data_append, String.data_append, String.data_append, String.data_append]
  rw [concatMapStr_data, concatMapStr_data]
  rw [List.map_append, List.flatten_append, List.map_map, List.map_map]
  have e1 : ∀ it : FilterQueryItem,
      ("fq=" ++ c.fqToHash it ++ "&").data = (['f', 'q', '='] ++ (c.fqToHash it).data) ++ ['&'] := by
    intro it
    rw [String.data_append, String.data_append]
  have e2 : ∀ it : QueryItem,
      ("q=" ++ c.qToHash it ++ "&").data = (['q', '='] ++ (c.qToHash it).data) ++ ['&'] := by
    intro it
    rw [String.data_append, String.data_append]
  rw [List.map_congr_left (fun x _ => e1 x), List.map_congr_left (fun x _ => e2 x)]
  rw [show ("#" : String).data = ['#'] from rfl,
    show ("start=" : String).data = ['s', 't', 'a', 'r', 't', '='] from rfl]
  simp [Function.comp_def, List.append_assoc]

/-- C3, counterexample: the round trip as claimed fails without a
registration assumption — with no widget registered under the id `text`, the
encoded term `cats` is silently dropped on decode (line 241's registration
check), so the multiset of term values is not restored into any selection,
although the item codecs round-trip. -/
theorem c3_roundtrip_cex :
    ((loadQueryFromHash sampleCodecs
        (saveQueryToHash sampleCodecs
          { fields := [], dates := [], q := [{ value := "cats" }], fl := [], fq := [],
            start := some 0, rows := 0, sort := none })
        { filters := { q := [], fq := [], fl := [] }, hlFl := "body",
          widgets := [inertWidget "other" []], start := some 5, hash := "" }).widgets.map
      (fun w => w.selection)) = [[]] ∧
    (Multiset.ofList ([] : List String) ≠ Multiset.ofList ["cats"]) := by
  exact ⟨by decide, by decide⟩

/-- C3, amended: decoding the fragment produced by encoding a query object
restores the same start offset and routes exactly the encoded filter and term
values — in order, hence the same multiset — into the widgets' selections,
PROVIDED the item codecs round-trip, the encodings are `&`-free, every filter
item's widgetId is registered, a widget `text` is registered whenever `q` is
non-empty, and the values routed to each registered widget are pairwise
distinct (the widget selection mutator deduplicates, and decode drops values
whose target widget is unregistered, so the raw claim fails without these
hypotheses). -/
theorem c3_roundtrip_amended (c : Codecs) (qo : QueryObj) (m : Manager)
    (hfq_rt : ∀ it ∈ qo.fq, c.fqParseHash (c.fqToHash it) = it)
    (hq_rt : ∀ it ∈ qo.q, (c.qParseHash (c.qToHash it)).value = it.value)
    (hfq_amp : ∀ it ∈ qo.fq, '&' ∉ (c.fqToHash it).data)
    (hq_amp : ∀ it ∈ qo.q, '&' ∉ (c.qToHash it).data)
    (hreg : ∀ it ∈ qo.fq, m.hasWidget it.widgetId = true)
    (htext : qo.q ≠ [] → m.hasWidget "text" = true)
    (hnodup : ∀ w ∈ m.widgets, (routedValues qo w.id).Nodup) :
    (loadQueryFromHash c (saveQueryToHash c qo) m).start = qo.start ∧
    (loadQueryFromHash c (saveQueryToHash c qo) m).widgets =
      m.widgets.map (fun w => { w with selection := routedValues qo w.id }) := by
  have hlen : (saveQueryToHash c qo).length ≠ 0 := by
    rw [show (saveQueryToHash c qo).length = (saveQueryToHash c qo).data.length from rfl, save_data]
    simp
  have hsegsamp : ∀ s ∈ (qo.fq.map (fun it => ['f', 'q', '='] ++ (c.fqToHash it).data)) ++
      (qo.q.map (fun it => ['q', '='] ++ (c.qToHash it).data)), '&' ∉ s := by
    intro s hs
    rw [List.mem_append] at hs
    rcases hs with hs | hs <;> rw [List.mem_map] at hs <;> obtain ⟨it, hit, rfl⟩ := hs
    · intro hm
      rw [List.mem_append] at hm
      rcases hm with hm | hm
      · exact absurd hm (by decide)
      · exact hfq_amp it hit hm
    · intro hm
      rw [List.mem_append] at hm
      rcases hm with hm | hm
      · exact absurd hm (by decide)
      · exact hq_amp it hit hm
  have hstartamp : '&' ∉ ['s', 't', 'a', 'r', 't', '='] ++ (jsToString qo.start).data := by
    intro hm
    rw [List.mem_append] at hm
    rcases hm with hm | hm
    · exact absurd hm (by decide)
    · exact jsToString_no_amp qo.start hm
  have hsplit : splitOnCh '&' ((saveQueryToHash c qo).data.drop 1) =
      ((qo.fq.map (fun it => ['f', 'q', '='] ++ (c.fqToHash it).data)) ++
        (qo.q.map (fun it => ['q', '='] ++ (c.qToHash it).data))) ++
      [['s', 't', 'a', 'r', 't', '='] ++ (jsToString qo.start).data] := by
    rw [save_data, List.drop_succ_cons, List.drop_zero]
    rw [split_segments _ _ hsegsamp]
    rw [splitOnCh_nosep '&' _ hstartamp]
  have hload : loadQueryFromHash c (saveQueryToHash c qo) m =
      List.foldl (loadSegment c) (resetAll m)
        (splitOnCh '&' ((saveQueryToHash c qo).data.drop 1)) := by
    unfold loadQueryFromHash
    rw [if_pos hlen]
  have hreg0 : ∀ it ∈ qo.fq, (resetAll m).hasWidget it.widgetId = true := by
    intro it hit
    show (m.widgets.map Widget.deselectAll).any (fun w => w.id = it.widgetId) = true
    rw [any_id_map m.widgets Widget.deselectAll (fun w => rfl) it.widgetId]
    exact hreg it hit
  have hnd0 : ∀ w2 ∈ (resetAll m).widgets,
      (w2.selection ++ (qo.fq.filter (fun x => x.widgetId = w2.id)).map (fun x => x.value)).Nodup := by
    intro w2 hw2
    rw [show (resetAll m).widgets = m.widgets.map Widget.deselectAll from rfl, List.mem_map] at hw2
    obtain ⟨w, hw, rfl⟩ := hw2
    show (([] : List String) ++
      (qo.fq.filter (fun x => x.widgetId = w.id)).map (fun x => x.value)).Nodup
    rw [List.nil_append]
    have h0 := hnodup w hw
    unfold routedValues at h0
    exact (List.nodup_append.mp h0).1
  have hM1text : qo.q ≠ [] → Manager.hasWidget { resetAll m with widgets := (resetAll m).widgets.map (fun w => { w with selection := w.selection ++ (qo.fq.filter (fun x => x.widgetId = w.id)).map (fun x => x.value) }) } "text" = true := by
    intro hne
    show ((resetAll m).widgets.map (fun (w : Widget) => { w with selection := w.selection ++ (qo.fq.filter (fun (x : FilterQueryItem) => x.widgetId = w.id)).map (fun (x : FilterQueryItem) => x.value) })).any (fun (w : Widget) => w.id = "text") = true
    rw [any_id_map ((resetAll m).widgets) (fun (w : Widget) => { w with selection := w.selection ++ (qo.fq.filter (fun (x : FilterQueryItem) => x.widgetId = w.id)).map (fun (x : FilterQueryItem) => x.value) }) (fun w => rfl) "text"]
    show (m.widgets.map Widget.deselectAll).any (fun (w : Widget) => w.id = "text") = true
    rw [any_id_map m.widgets Widget.deselectAll (fun w => rfl) "text"]
    exact htext hne
  have hM1nd : ∀ w2 ∈ ({ resetAll m with widgets := (resetAll m).widgets.map (fun w => { w with selection := w.selection ++ (qo.fq.filter (fun x => x.widgetId = w.id)).map (fun x => x.value) }) } : Manager).widgets, (w2.selection ++ (if w2.id = "text" then qo.q.map (fun x => x.value) else [])).Nodup := by
    intro w2 hw2
    rw [show ({ resetAll m with widgets := (resetAll m).widgets.map (fun w => { w with selection := w.selection ++ (qo.fq.filter (fun x => x.widgetId = w.id)).map (fun x => x.value) }) } : Manager).widgets = (m.widgets.map Widget.deselectAll).map (fun w => { w with selection := w.selection ++ (qo.fq.filter (fun x => x.widgetId = w.id)).map (fun x => x.value) }) from rfl, List.map_map, List.mem_map] at hw2
    obtain ⟨w, hw, rfl⟩ := hw2
    show ((([] : List String) ++
        (qo.fq.filter (fun x => x.widgetId = w.id)).map (fun x => x.value)) ++
      (if w.id = "text" then qo.q.map (fun x => x.value) else [])).Nodup
    rw [List.nil_append]
    have h0 := hnodup w hw
    unfold routedValues at h0
    exact h0
  constructor
  · rw [hload, hsplit, List.foldl_append, List.foldl_append,
      foldFq c qo.fq (resetAll m) hfq_rt hreg0 hnd0,
      foldQ c qo.q _ hq_rt hM1text hM1nd,
      List.foldl_cons, List.foldl_nil, loadSegment_start, jsToString_roundtrip]
  · rw [hload, hsplit, List.foldl_append, List.foldl_append,
      foldFq c qo.fq (resetAll m) hfq_rt hreg0 hnd0,
      foldQ c qo.q _ hq_rt hM1text hM1nd,
      List.foldl_cons, List.foldl_nil, loadSegment_start, jsToString_roundtrip]
    show ((m.widgets.map Widget.deselectAll).map (fun (w : Widget) => { w with selection := w.selection ++ (qo.fq.filter (fun x => x.widgetId = w.id)).map (fun x => x.value) })).map (fun (w : Widget) => { w with selection := w.selection ++ (if w.id = "text" then qo.q.map (fun x => x.value) else []) }) = m.widgets.map (fun (w : Widget) => { w with selection := routedValues qo w.id })
    rw [List.map_map, List.map_map]
    apply List.map_congr_left
    intro w _
    simp [Function.comp, Widget.deselectAll, routedValues]

/-- Closed witness for `c3_roundtrip_amended`: one filter item for the
`color` widget and one term for the `text` widget, with the sample codecs —
every hypothesis holds by computation, and the round trip restores start
offset 20 and the selections `red` (on `color`) and `cats` (on `text`). -/
theorem c3_roundtrip_witness :
    ((∀ it ∈ sampleQuery.fq, sampleCodecs.fqParseHash (sampleCodecs.fqToHash it) = it) ∧
     (∀ it ∈ sampleQuery.q, (sampleCodecs.qParseHash (sampleCodecs.qToHash it)).value = it.value) ∧
     (∀ it ∈ sampleQuery.fq, '&' ∉ (sampleCodecs.fqToHash it).data) ∧
     (∀ it ∈ sampleQuery.q, '&' ∉ (sampleCodecs.qToHash it).data) ∧
     (∀ it ∈ sampleQuery.fq, sampleManager.hasWidget it.widgetId = true) ∧
     (sampleQuery.q ≠ [] → sampleManager.hasWidget "text" = true) ∧
     (∀ w ∈ sampleManager.widgets, (routedValues sampleQuery w.id).Nodup)) ∧
    ((loadQueryFromHash sampleCodecs (saveQueryToHash sampleCodecs sampleQuery)
        sampleManager).start = sampleQuery.start ∧
     (loadQueryFromHash sampleCodecs (saveQueryToHash sampleCodecs sampleQuery)
        sampleManager).widgets =
       sampleManager.widgets.map (fun w => { w with selection := routedValues sampleQuery w.id })) :=
  ⟨⟨by decide, by decide, by decide, by decide, by decide, by decide, by decide⟩,
    c3_roundtrip_amended sampleCodecs sampleQuery sampleManager (by decide) (by decide)
      (by decide) (by decide) (by decide) (by decide) (by decide)⟩
